import Mathlib

set_option maxRecDepth 8000

/-!
Shallow embedding of the BigQuery agent-analytics logging plugin
(`google/adk/plugins/bigquery_logging_plugin.py`): data model, event
classification, content formatting, the filter/format/write pipeline of
`_log_to_bigquery_async`, and the lazy one-shot sink initialization of
`_ensure_initialized_sync`.  External effects (credential acquisition,
the BigQuery client, wall-clock time) are modelled as explicit inputs;
Python dictionaries are modelled as association lists; a Python `None`
value is `Option.none`; a raising callable is one returning `none`.
-/

namespace BQLog

/-- Truthiness of an optional string, as Python evaluates it: `None` and
the empty string are falsy, every other string is truthy. -/
def optStrTruthy : Option String → Bool
  | some s => !(s == "")
  | none => false

/-- Python `str.strip()` whitespace set: space, tab, newline, carriage
return, vertical tab, form feed. -/
def isPySpace (c : Char) : Bool :=
  c = ' ' || c = '\t' || c = '\n' || c = '\r' || c = '\x0b' || c = '\x0c'

/-- Python `str.strip()`: remove leading and trailing whitespace. -/
def pyStrip (s : String) : String :=
  String.mk (((s.data.dropWhile isPySpace).reverse.dropWhile isPySpace).reverse)

/-- A function-call payload inside a content part (`types.FunctionCall`):
a name and an arguments dictionary (values restricted to strings). -/
structure FunctionCall where
  name : String
  args : List (String × String)
deriving DecidableEq, Repr

/-- A function-response payload inside a content part
(`types.FunctionResponse`): a name and a response dictionary. -/
structure FunctionResponse where
  name : String
  response : List (String × String)
deriving DecidableEq, Repr

/-- A content part (`types.Part`), restricted to the four optional payload
fields the plugin inspects: `text`, `function_call`, `function_response`,
`code_execution_result`. -/
structure Part where
  text : Option String
  function_call : Option FunctionCall
  function_response : Option FunctionResponse
  code_execution_result : Option String
deriving DecidableEq, Repr

/-- Content (`types.Content`): a list of parts. -/
structure Content where
  parts : List Part
deriving DecidableEq, Repr

/-- An ADK `Event` as the plugin consumes it: its author, optional
content, and optional error message. -/
structure Event where
  author : String
  content : Option Content
  error_message : Option String
deriving DecidableEq, Repr

/-- The parts of an event's content; empty when content is absent.
`event.content and event.content.parts` is truthy exactly when this list
is non-empty. -/
def partsOf (e : Event) : List Part :=
  match e.content with
  | some c => c.parts
  | none => []

/-- Modelled from the spec: `Event.get_function_calls` (ADK library code,
not under `src/`) — the payload carries a function-call request exactly
when some content part has a `function_call`; the method collects those
payloads in order. -/
def getFunctionCalls (e : Event) : List FunctionCall :=
  (partsOf e).filterMap Part.function_call

/-- Modelled from the spec: `Event.get_function_responses` (ADK library
code, not under `src/`) — the function-call results carried by the
event's content parts, in order. -/
def getFunctionResponses (e : Event) : List FunctionResponse :=
  (partsOf e).filterMap Part.function_response

/-- `_get_event_type`: classify a generic event by payload shape. -/
def getEventType (e : Event) : String :=
  if e.author = "user" then "USER_INPUT"
  else if getFunctionCalls e ≠ [] then "TOOL_CALL"
  else if getFunctionResponses e ≠ [] then "TOOL_RESULT"
  else if partsOf e ≠ [] then "MODEL_RESPONSE"
  else if optStrTruthy e.error_message then "ERROR"
  else "SYSTEM"

/-- The summary of a part that carries no truthy `text`: the
`elif`-chain of `_format_content` after the text branch. -/
def formatPartRest (p : Part) : String :=
  match p.function_call with
  | some fc => "function_call: " ++ fc.name
  | none =>
    match p.function_response with
    | some fr => "function_response: " ++ fr.name
    | none =>
      match p.code_execution_result with
      | some _ => "code_execution_result"
      | none => "other_part"

/-- The per-part summary built by the loop body of `_format_content`:
a truthy `text` is stripped, truncated to `maxLength` characters plus an
ellipsis when longer, and quoted; other parts render by kind (and, for
function calls and responses, name only). -/
def formatPart (maxLength : Nat) (p : Part) : String :=
  match p.text with
  | some t =>
    if t = "" then formatPartRest p
    else
      let tx := pyStrip t
      let tx := if maxLength < tx.length then tx.take maxLength ++ "..." else tx
      "text: '" ++ tx ++ "'"
  | none => formatPartRest p

/-- `_format_content`: "None" for absent or empty content, otherwise the
per-part summaries joined with " | ". -/
def formatContent (content : Option Content) (maxLength : Nat) : String :=
  match content with
  | none => "None"
  | some c =>
    if c.parts.isEmpty then "None"
    else String.intercalate " | " (c.parts.map (formatPart maxLength))

/-- Python `str(args)` for a dictionary with string keys and values:
`\x7b'k': 'v', ...\x7d`. -/
def strDict (args : List (String × String)) : String :=
  "\x7b" ++
    String.intercalate ", "
      (args.map (fun kv => "'" ++ kv.1 ++ "': '" ++ kv.2 ++ "'")) ++
  "\x7d"

/-- `_format_args`: "\x7b\x7d" for an empty dictionary, otherwise the
`str` rendering truncated to `maxLength` characters plus a closing
marker when longer. -/
def formatArgs (args : List (String × String)) (maxLength : Nat) : String :=
  if args.isEmpty then "\x7b\x7d"
  else
    let formatted := strDict args
    if maxLength < formatted.length then formatted.take maxLength ++ "...\x7d"
    else formatted

/-- `BigQueryLoggerConfig`: the plugin configuration.  A content
formatter is a Python callable on the content value (which may be
`None`); it returns the new value, or `none` at the meta level when the
call raises. -/
structure Config where
  enabled : Bool
  event_allowlist : Option (List String)
  event_denylist : Option (List String)
  content_formatter : Option (Option String → Option (Option String))

/-- The plugin's mutable sink state: `_init_done`, `_init_succeeded`,
and whether `_bq_client` is set (non-`None`). -/
structure PluginState where
  init_done : Bool
  init_succeeded : Bool
  bq_client : Bool
deriving DecidableEq, Repr

/-- A plugin instance before any write: both flags false, no client. -/
def freshState : PluginState := ⟨false, false, false⟩

/-- The outcome the external world hands one execution of the
initialization body: full success; an auth failure (raised before the
client is constructed); or a cloud failure during dataset/table
provisioning (client already constructed).  Both failure families are
caught by the `except` clause of `_ensure_initialized_sync`. -/
inductive InitOutcome
  | success
  | authFail
  | cloudFail
deriving DecidableEq, Repr

/-- `_ensure_initialized_sync` under the lock, sequentialized: a no-op
when disabled or already attempted; otherwise sets `_init_done`, runs
the body with the given outcome, and records success.  The returned
flag says whether the initialization body ran. -/
def ensureInitializedSync (cfg : Config) (s : PluginState)
    (o : InitOutcome) : PluginState × Bool :=
  if cfg.enabled = false then (s, false)
  else if s.init_done then (s, false)
  else
    match o with
    | .success => (⟨true, true, true⟩, true)
    | .authFail => (⟨true, false, false⟩, true)
    | .cloudFail => (⟨true, false, true⟩, true)

/-- A Python dictionary with string keys and string-or-`None` values
(an event dict or an insert row), as an association list. -/
def EventDict := List (String × Option String)
deriving DecidableEq, Repr

/-- `event_dict.get("event_type")`: `None` when the key is absent. -/
def eventTypeOf (d : EventDict) : Option String :=
  (List.lookup "event_type" d).getD none

/-- Python `x in l` for an optional string against a string list. -/
def inListOpt (et : Option String) (l : List String) : Bool :=
  match et with
  | some t => l.contains t
  | none => false

/-- The denylist guard of `_log_to_bigquery_async`:
`self._config.event_denylist and event_type in self._config.event_denylist`. -/
def denyCheck (cfg : Config) (et : Option String) : Bool :=
  match cfg.event_denylist with
  | some l => !l.isEmpty && inListOpt et l
  | none => false

/-- The allowlist guard of `_log_to_bigquery_async`:
`self._config.event_allowlist and event_type not in self._config.event_allowlist`. -/
def allowCheck (cfg : Config) (et : Option String) : Bool :=
  match cfg.event_allowlist with
  | some l => !l.isEmpty && !(inListOpt et l)
  | none => false

/-- Replace the value stored under "content". -/
def setContent (d : EventDict) (v : Option String) : EventDict :=
  d.map (fun kv => if kv.1 = "content" then (kv.1, v) else kv)

/-- The custom-formatter step of `_log_to_bigquery_async`: when a
formatter is configured and the "content" key is present, invoke it on
the stored value; a raising formatter (meta-level `none`) is caught and
logged, leaving the dict unchanged.  The flag says whether the
formatter was invoked. -/
def applyFormatter (cfg : Config) (d : EventDict) : EventDict × Bool :=
  match cfg.content_formatter with
  | none => (d, false)
  | some f =>
    match List.lookup "content" d with
    | none => (d, false)
    | some c =>
      match f c with
      | some v => (setContent d v, true)
      | none => (d, true)

/-- The fixed-shape row template `default_row` built inside `_sync_log`,
with the insertion-time timestamp supplied by the environment. -/
def defaultRow (now : String) : EventDict :=
  [("timestamp", some now), ("event_type", none), ("agent", none),
   ("session_id", none), ("invocation_id", none), ("user_id", none),
   ("content", none), ("error_message", none)]

/-- The eight column names of the BigQuery schema. -/
def eightFields : List String :=
  ["timestamp", "event_type", "agent", "session_id", "invocation_id",
   "user_id", "content", "error_message"]

/-- `insert_row = dictMerge default_row event_dict`: the template's keys in
order, each overridden by the event dict when it has the key, followed
by the event dict's extra keys. -/
def mergeRow (now : String) (d : EventDict) : EventDict :=
  ((defaultRow now).map
      (fun kv => (kv.1, (List.lookup kv.1 d).getD kv.2))) ++
    List.filter (fun kv => (List.lookup kv.1 (defaultRow now)).isNone) d

/-- How the store client behaves on `insert_rows_json`: a clean insert;
a non-empty per-row error list (logged, not raised); or a raised
exception — a Google Cloud error, a Google auth error, or an exception
outside those two families. -/
inductive InsertBehavior
  | ok
  | rowErrors
  | raiseCloud
  | raiseAuth
  | raiseOther
deriving DecidableEq, Repr

/-- An exception escaping the worker thread of `_sync_log`. -/
inductive ClientErr
  | cloud
  | auth
  | other
deriving DecidableEq, Repr

/-- The exception (if any) a given client behavior raises. -/
def insertThrow : InsertBehavior → Option ClientErr
  | .raiseCloud => some .cloud
  | .raiseAuth => some .auth
  | .raiseOther => some .other
  | _ => none

/-- The `except (GoogleCloudError, GoogleAuthError)` clause around
`await asyncio.to_thread(_sync_log)`: those two families are caught and
logged; any other exception propagates. -/
def catchGoogle : Option ClientErr → Option ClientErr
  | some .other => some .other
  | _ => none

/-- What one execution of `_sync_log` produced: the new plugin state,
the row handed to `insert_rows_json` (when the call was made), the
exception escaping the thread, and whether the initialization body
ran. -/
structure SyncResult where
  state : PluginState
  insertedRow : Option EventDict
  thrown : Option ClientErr
  initBodyRan : Bool

/-- `_sync_log`: ensure initialization, bail out when it did not fully
succeed, otherwise build the merged row and hand it to
`insert_rows_json` with the given client behavior. -/
def syncLog (cfg : Config) (s : PluginState) (o : InitOutcome)
    (now : String) (d : EventDict) (b : InsertBehavior) : SyncResult :=
  if (ensureInitializedSync cfg s o).1.init_succeeded = false
      || (ensureInitializedSync cfg s o).1.bq_client = false then
    ⟨(ensureInitializedSync cfg s o).1, none, none,
      (ensureInitializedSync cfg s o).2⟩
  else
    ⟨(ensureInitializedSync cfg s o).1, some (mergeRow now d), insertThrow b,
      (ensureInitializedSync cfg s o).2⟩

/-- The observable effects of one `_log_to_bigquery_async` call. -/
structure Effect where
  initBodyRan : Bool
  formatterRan : Bool
  sentDict : Option EventDict
  insertedRow : Option EventDict
  raised : Option ClientErr
deriving DecidableEq, Repr

/-- The effect of a call that returned at a filter guard. -/
def noEffect : Effect := ⟨false, false, none, none, none⟩

/-- The environment-supplied inputs of one write call: the
initialization outcome (were the body to run), the client's insert
behavior, the `_sync_log` wall-clock timestamp, and the event dict the
hook built. -/
structure Step where
  outcome : InitOutcome
  behavior : InsertBehavior
  now : String
  dict : EventDict

/-- The post-filter body of `_log_to_bigquery_async`: the formatter
step, then `_sync_log` on a worker thread with Google errors caught at
the `await`. -/
def logBody (cfg : Config) (s : PluginState) (st : Step) :
    PluginState × Effect :=
  ((syncLog cfg s st.outcome st.now (applyFormatter cfg st.dict).1
      st.behavior).state,
   ⟨(syncLog cfg s st.outcome st.now (applyFormatter cfg st.dict).1
       st.behavior).initBodyRan,
    (applyFormatter cfg st.dict).2,
    some (applyFormatter cfg st.dict).1,
    (syncLog cfg s st.outcome st.now (applyFormatter cfg st.dict).1
      st.behavior).insertedRow,
    catchGoogle (syncLog cfg s st.outcome st.now
      (applyFormatter cfg st.dict).1 st.behavior).thrown⟩)

/-- `_log_to_bigquery_async`: the enabled/denylist/allowlist guards,
then the formatter and `_sync_log` body. -/
def logToBigQuery (cfg : Config) (s : PluginState) (st : Step) :
    PluginState × Effect :=
  if cfg.enabled = false then (s, noEffect)
  else if denyCheck cfg (eventTypeOf st.dict) then (s, noEffect)
  else if allowCheck cfg (eventTypeOf st.dict) then (s, noEffect)
  else logBody cfg s st

/-- A sequence of write calls against one plugin instance, returning the
final state and the per-call effects. -/
def run (cfg : Config) (s : PluginState) : List Step → PluginState × List Effect
  | [] => (s, [])
  | st :: rest =>
    ((run cfg (logToBigQuery cfg s st).1 rest).1,
     (logToBigQuery cfg s st).2 :: (run cfg (logToBigQuery cfg s st).1 rest).2)

/-- The number of calls in a trace whose initialization body ran. -/
def countInit (es : List Effect) : Nat :=
  es.countP (fun e => e.initBodyRan)

/-- The correlation context a hook reads (`invocation_context` or
`callback_context` plus its session): agent name, session id,
invocation id, user id. -/
structure Ctx where
  agent_name : String
  session_id : String
  invocation_id : String
  user_id : String
deriving DecidableEq, Repr

/-- A JSON string literal (escaping not modelled; the embedding's
strings contain no quotes or backslashes). -/
def jsonStr (s : String) : String := "\"" ++ s ++ "\""

/-- JSON rendering of a string-or-null value. -/
def jsonOptStr : Option String → String
  | some s => jsonStr s
  | none => "null"

/-- JSON rendering of a string-keyed, string-valued dictionary. -/
def jsonDictStr (d : List (String × String)) : String :=
  "\x7b" ++
    String.intercalate ", "
      (d.map (fun kv => jsonStr kv.1 ++ ": " ++ jsonStr kv.2)) ++
  "\x7d"

/-- `json.dumps(part.model_dump(mode="json"))` restricted to the four
payload fields the embedding's `Part` carries, absent fields rendered
as JSON `null`: the full serialization of a part, its function-call
arguments and function-response body included. -/
def partDumpJson (p : Part) : String :=
  "\x7b" ++
    String.intercalate ", "
      ["\"text\": " ++ jsonOptStr p.text,
       "\"function_call\": " ++
         (match p.function_call with
          | some fc =>
            "\x7b\"name\": " ++ jsonStr fc.name ++ ", \"args\": " ++
              jsonDictStr fc.args ++ "\x7d"
          | none => "null"),
       "\"function_response\": " ++
         (match p.function_response with
          | some fr =>
            "\x7b\"name\": " ++ jsonStr fr.name ++ ", \"response\": " ++
              jsonDictStr fr.response ++ "\x7d"
          | none => "null"),
       "\"code_execution_result\": " ++ jsonOptStr p.code_execution_result] ++
  "\x7d"

/-- `json.dumps([part.model_dump(mode="json") for part in parts])`. -/
def jsonDumpParts (parts : List Part) : String :=
  "[" ++ String.intercalate ", " (parts.map partDumpJson) ++ "]"

/-- The event dict built by `on_event_callback`: the event's rendered
timestamp is supplied by the environment; content is the full JSON dump
of the parts when the event has non-empty content, else `None`. -/
def onEventDict (tsIso : String) (ctx : Ctx) (e : Event) : EventDict :=
  [("timestamp", some tsIso),
   ("event_type", some (getEventType e)),
   ("agent", some e.author),
   ("session_id", some ctx.session_id),
   ("invocation_id", some ctx.invocation_id),
   ("user_id", some ctx.user_id),
   ("content",
     match e.content with
     | some c => if c.parts.isEmpty then none else some (jsonDumpParts c.parts)
     | none => none),
   ("error_message", e.error_message)]

/-- `on_event_callback`: build the event dict and run it through
`_log_to_bigquery_async`. -/
def onEventCallback (tsIso : String) (ctx : Ctx) (e : Event)
    (cfg : Config) (s : PluginState) (o : InitOutcome)
    (b : InsertBehavior) (now : String) : PluginState × Effect :=
  logToBigQuery cfg s ⟨o, b, now, onEventDict tsIso ctx e⟩

/-- `GenerateContentResponseUsageMetadata`, restricted to the three
token counts the plugin reads. -/
structure UsageMetadata where
  prompt_token_count : Option Nat
  candidates_token_count : Option Nat
  total_token_count : Option Nat
deriving DecidableEq, Repr

/-- An f-string rendering of an optional count (`None` when absent). -/
def optNatStr : Option Nat → String
  | some n => toString n
  | none => "None"

/-- An `LlmResponse` as `after_model_callback` consumes it. -/
structure LlmResponse where
  content : Option Content
  usage_metadata : Option UsageMetadata
  error_code : Option String
  error_message : Option String
deriving DecidableEq, Repr

/-- The content string built by `after_model_callback`: tool-call
responses list the called tool names; text responses go through
`_format_content`; token usage is appended when present. -/
def afterModelContent (r : LlmResponse) : String :=
  let isToolCall :=
    match r.content with
    | some c => if c.parts.isEmpty then false
                else c.parts.any (fun p => p.function_call.isSome)
    | none => false
  let first :=
    if isToolCall then
      let fcNames :=
        match r.content with
        | some c => (c.parts.filterMap Part.function_call).map FunctionCall.name
        | none => []
      "Tool Name: " ++ String.intercalate ", " fcNames
    else
      "Tool Name: text_response, " ++ formatContent r.content 200
  let parts :=
    match r.usage_metadata with
    | some u =>
      [first,
       "Token Usage: \x7bprompt: " ++ optNatStr u.prompt_token_count ++
         ", candidates: " ++ optNatStr u.candidates_token_count ++
         ", total: " ++ optNatStr u.total_token_count ++ "\x7d"]
    | none => [first]
  String.intercalate " | " parts

/-- The event dict built by `after_model_callback`; its error_message
is the response's error_message only when the response's error_code is
truthy. -/
def afterModelDict (now : String) (ctx : Ctx) (r : LlmResponse) : EventDict :=
  [("timestamp", some now),
   ("event_type", some "LLM_RESPONSE"),
   ("agent", some ctx.agent_name),
   ("session_id", some ctx.session_id),
   ("invocation_id", some ctx.invocation_id),
   ("user_id", some ctx.user_id),
   ("content", some (afterModelContent r)),
   ("error_message",
     if optStrTruthy r.error_code then r.error_message else none)]

/-- Does `sub` occur as a contiguous run inside `s`, checked on the
underlying character lists? -/
def listContainsSub : List Char → List Char → Bool
  | [], sub => sub.isEmpty
  | c :: rest, sub => sub.isPrefixOf (c :: rest) || listContainsSub rest sub

/-- Does `sub` occur inside `s` as a contiguous substring? -/
def hasSubstr (s sub : String) : Bool :=
  listContainsSub s.data sub.data

theorem ensure_done_eq (cfg : Config) (s : PluginState) (o : InitOutcome)
    (h : s.init_done = true) : ensureInitializedSync cfg s o = (s, false) := by
  unfold ensureInitializedSync
  cases he : cfg.enabled <;> simp [he, h]

theorem ensure_not_ran (cfg : Config) (s : PluginState) (o : InitOutcome) :
    (ensureInitializedSync cfg s o).2 = false →
    (ensureInitializedSync cfg s o).1 = s := by
  intro h
  unfold ensureInitializedSync at h ⊢
  cases he : cfg.enabled with
  | false => simp [he]
  | true =>
    cases hd : s.init_done with
    | false => cases o <;> simp [he, hd] at h
    | true => simp [he, hd]

theorem ensure_ran (cfg : Config) (s : PluginState) (o : InitOutcome) :
    (ensureInitializedSync cfg s o).2 = true →
    s.init_done = false ∧ (ensureInitializedSync cfg s o).1.init_done = true := by
  intro h
  unfold ensureInitializedSync at h ⊢
  cases he : cfg.enabled with
  | false => simp [he] at h
  | true =>
    cases hd : s.init_done with
    | false => exact ⟨rfl, by cases o <;> simp [he, hd]⟩
    | true => simp [he, hd] at h

theorem ensure_ran_of (cfg : Config) (s : PluginState) (o : InitOutcome)
    (h1 : cfg.enabled = true) (h2 : s.init_done = false) :
    (ensureInitializedSync cfg s o).2 = true := by
  unfold ensureInitializedSync
  cases o <;> simp [h1, h2]

theorem ensure_fail (cfg : Config) (s : PluginState) (o : InitOutcome)
    (ho : o ≠ .success) :
    (ensureInitializedSync cfg s o).2 = true →
    (ensureInitializedSync cfg s o).1.init_succeeded = false
    ∧ (ensureInitializedSync cfg s o).1.init_done = true := by
  intro h
  unfold ensureInitializedSync at h ⊢
  cases he : cfg.enabled with
  | false => simp [he] at h
  | true =>
    cases hd : s.init_done with
    | false =>
      cases o with
      | success => exact absurd rfl ho
      | authFail => simp [he, hd]
      | cloudFail => simp [he, hd]
    | true => simp [he, hd] at h

theorem syncLog_state (cfg : Config) (s : PluginState) (o : InitOutcome)
    (now : String) (d : EventDict) (b : InsertBehavior) :
    (syncLog cfg s o now d b).state = (ensureInitializedSync cfg s o).1 := by
  unfold syncLog
  split <;> rfl

theorem syncLog_ran (cfg : Config) (s : PluginState) (o : InitOutcome)
    (now : String) (d : EventDict) (b : InsertBehavior) :
    (syncLog cfg s o now d b).initBodyRan = (ensureInitializedSync cfg s o).2 := by
  unfold syncLog
  split <;> rfl

theorem syncLog_row (cfg : Config) (s : PluginState) (o : InitOutcome)
    (now : String) (d : EventDict) (b : InsertBehavior) (r : EventDict) :
    (syncLog cfg s o now d b).insertedRow = some r →
    (ensureInitializedSync cfg s o).1.init_succeeded = true ∧ r = mergeRow now d := by
  unfold syncLog
  split
  · intro h; simp at h
  · intro h
    rename_i hc
    simp only [Bool.or_eq_true, decide_eq_true_eq, not_or] at hc
    refine ⟨by simpa [Bool.not_eq_false] using hc.1, ?_⟩
    simpa using h.symm

theorem syncLog_row_none (cfg : Config) (s : PluginState) (o : InitOutcome)
    (now : String) (d : EventDict) (b : InsertBehavior)
    (h : (ensureInitializedSync cfg s o).1.init_succeeded = false) :
    (syncLog cfg s o now d b).insertedRow = none := by
  unfold syncLog
  split
  · rfl
  · rename_i hc
    simp only [Bool.or_eq_true, decide_eq_true_eq, not_or] at hc
    exact absurd h (by simpa [Bool.not_eq_false] using hc.1)

theorem syncLog_thrown (cfg : Config) (s : PluginState) (o : InitOutcome)
    (now : String) (d : EventDict) (b : InsertBehavior) :
    (syncLog cfg s o now d b).thrown = none
    ∨ (syncLog cfg s o now d b).thrown = insertThrow b := by
  unfold syncLog
  split
  · left; rfl
  · right; rfl

theorem log_filtered (cfg : Config) (s : PluginState) (st : Step)
    (h : cfg.enabled = false
      ∨ denyCheck cfg (eventTypeOf st.dict) = true
      ∨ allowCheck cfg (eventTypeOf st.dict) = true) :
    logToBigQuery cfg s st = (s, noEffect) := by
  unfold logToBigQuery
  by_cases h1 : cfg.enabled = false
  · rw [if_pos h1]
  · rw [if_neg h1]
    by_cases h2 : denyCheck cfg (eventTypeOf st.dict) = true
    · rw [if_pos h2]
    · rw [if_neg h2]
      by_cases h3 : allowCheck cfg (eventTypeOf st.dict) = true
      · rw [if_pos h3]
      · rcases h with h | h | h
        · exact absurd h h1
        · exact absurd h h2
        · exact absurd h h3

theorem log_admitted (cfg : Config) (s : PluginState) (st : Step)
    (h1 : cfg.enabled = true)
    (h2 : denyCheck cfg (eventTypeOf st.dict) = false)
    (h3 : allowCheck cfg (eventTypeOf st.dict) = false) :
    logToBigQuery cfg s st = logBody cfg s st := by
  unfold logToBigQuery
  rw [if_neg (by simp [h1]), if_neg (by simp [h2]), if_neg (by simp [h3])]

theorem log_cases (cfg : Config) (s : PluginState) (st : Step) :
    logToBigQuery cfg s st = (s, noEffect)
    ∨ (cfg.enabled = true
        ∧ denyCheck cfg (eventTypeOf st.dict) = false
        ∧ allowCheck cfg (eventTypeOf st.dict) = false
        ∧ logToBigQuery cfg s st = logBody cfg s st) := by
  by_cases h1 : cfg.enabled = false
  · exact Or.inl (log_filtered cfg s st (Or.inl h1))
  · by_cases h2 : denyCheck cfg (eventTypeOf st.dict) = true
    · exact Or.inl (log_filtered cfg s st (Or.inr (Or.inl h2)))
    · by_cases h3 : allowCheck cfg (eventTypeOf st.dict) = true
      · exact Or.inl (log_filtered cfg s st (Or.inr (Or.inr h3)))
      · have h1' : cfg.enabled = true := by simpa using h1
        have h2' : denyCheck cfg (eventTypeOf st.dict) = false := by
          simpa using h2
        have h3' : allowCheck cfg (eventTypeOf st.dict) = false := by
          simpa using h3
        exact Or.inr ⟨h1', h2', h3', log_admitted cfg s st h1' h2' h3'⟩

theorem log_not_ran (cfg : Config) (s : PluginState) (st : Step) :
    (logToBigQuery cfg s st).2.initBodyRan = false →
    (logToBigQuery cfg s st).1 = s := by
  intro h
  rcases log_cases cfg s st with he | ⟨_, _, _, he⟩
  · rw [he]
  · rw [he] at h ⊢
    have h' : (ensureInitializedSync cfg s st.outcome).2 = false := by
      rw [← syncLog_ran cfg s st.outcome st.now (applyFormatter cfg st.dict).1
        st.behavior]
      exact h
    show (syncLog cfg s st.outcome st.now (applyFormatter cfg st.dict).1
      st.behavior).state = s
    rw [syncLog_state]
    exact ensure_not_ran _ _ _ h'

theorem log_ran (cfg : Config) (s : PluginState) (st : Step) :
    (logToBigQuery cfg s st).2.initBodyRan = true →
    s.init_done = false ∧ (logToBigQuery cfg s st).1.init_done = true := by
  intro h
  rcases log_cases cfg s st with he | ⟨_, _, _, he⟩
  · rw [he] at h
    simp [noEffect] at h
  · rw [he] at h ⊢
    have h' : (ensureInitializedSync cfg s st.outcome).2 = true := by
      rw [← syncLog_ran cfg s st.outcome st.now (applyFormatter cfg st.dict).1
        st.behavior]
      exact h
    refine ⟨(ensure_ran _ _ _ h').1, ?_⟩
    show (syncLog cfg s st.outcome st.now (applyFormatter cfg st.dict).1
      st.behavior).state.init_done = true
    rw [syncLog_state]
    exact (ensure_ran _ _ _ h').2

theorem log_done_state (cfg : Config) (s : PluginState) (st : Step)
    (h : s.init_done = true) : (logToBigQuery cfg s st).1 = s := by
  by_cases hr : (logToBigQuery cfg s st).2.initBodyRan = true
  · exact absurd h (by simp [(log_ran cfg s st hr).1])
  · exact log_not_ran cfg s st (by simpa using hr)

theorem log_done_not_ran (cfg : Config) (s : PluginState) (st : Step)
    (h : s.init_done = true) :
    (logToBigQuery cfg s st).2.initBodyRan = false := by
  by_cases hr : (logToBigQuery cfg s st).2.initBodyRan = true
  · exact absurd h (by simp [(log_ran cfg s st hr).1])
  · simpa using hr

theorem log_row (cfg : Config) (s : PluginState) (st : Step) (r : EventDict) :
    (logToBigQuery cfg s st).2.insertedRow = some r →
    cfg.enabled = true
    ∧ denyCheck cfg (eventTypeOf st.dict) = false
    ∧ allowCheck cfg (eventTypeOf st.dict) = false
    ∧ (logToBigQuery cfg s st).1.init_succeeded = true
    ∧ ∃ d, (logToBigQuery cfg s st).2.sentDict = some d ∧ r = mergeRow st.now d := by
  intro h
  rcases log_cases cfg s st with he | ⟨h1, h2, h3, he⟩
  · rw [he] at h
    simp [noEffect] at h
  · rw [he] at h ⊢
    have h' : (syncLog cfg s st.outcome st.now (applyFormatter cfg st.dict).1
      st.behavior).insertedRow = some r := h
    obtain ⟨hs, hr⟩ := syncLog_row _ _ _ _ _ _ _ h'
    refine ⟨h1, h2, h3, ?_, ⟨_, rfl, hr⟩⟩
    show (syncLog cfg s st.outcome st.now (applyFormatter cfg st.dict).1
      st.behavior).state.init_succeeded = true
    rw [syncLog_state]
    exact hs

theorem log_failed_no_row (cfg : Config) (s : PluginState) (st : Step)
    (h : s.init_done = true) (h2 : s.init_succeeded = false) :
    (logToBigQuery cfg s st).2.insertedRow = none := by
  rcases log_cases cfg s st with he | ⟨_, _, _, he⟩
  · rw [he]; rfl
  · rw [he]
    show (syncLog cfg s st.outcome st.now (applyFormatter cfg st.dict).1
      st.behavior).insertedRow = none
    apply syncLog_row_none
    rw [ensure_done_eq _ _ _ h]
    exact h2

theorem countInit_cons (e : Effect) (es : List Effect) :
    countInit (e :: es) = countInit es + (if e.initBodyRan then 1 else 0) := by
  simp [countInit, List.countP_cons]

theorem run_countInit (cfg : Config) (steps : List Step) :
    ∀ s : PluginState,
      countInit (run cfg s steps).2 ≤ (if s.init_done then 0 else 1) := by
  induction steps with
  | nil => intro s; simp [run, countInit]
  | cons st rest ih =>
    intro s
    show countInit ((logToBigQuery cfg s st).2 ::
      (run cfg (logToBigQuery cfg s st).1 rest).2) ≤ _
    rw [countInit_cons]
    by_cases hr : (logToBigQuery cfg s st).2.initBodyRan = true
    · obtain ⟨hd, hd'⟩ := log_ran cfg s st hr
      have hrest := ih (logToBigQuery cfg s st).1
      rw [if_pos hd'] at hrest
      simp only [hr, hd, if_true, if_false, Bool.false_eq_true]
      omega
    · have hrest := ih s
      rw [log_not_ran cfg s st (by simpa using hr)]
      simp only [Bool.not_eq_true] at hr
      simp only [hr, Bool.false_eq_true, if_false]
      simpa using hrest

theorem inListOpt_nil (et : Option String) : inListOpt et [] = false := by
  cases et <;> rfl

theorem run_disabled (cfg : Config) (h : cfg.enabled = false) :
    ∀ (steps : List Step) (s : PluginState),
      (run cfg s steps).1 = s ∧ ∀ e ∈ (run cfg s steps).2, e = noEffect := by
  intro steps
  induction steps with
  | nil => intro s; exact ⟨rfl, by simp [run]⟩
  | cons st rest ih =>
    intro s
    have hl := log_filtered cfg s st (Or.inl h)
    have hrun : run cfg s (st :: rest) =
        ((run cfg s rest).1, noEffect :: (run cfg s rest).2) := by
      show ((run cfg (logToBigQuery cfg s st).1 rest).1,
        (logToBigQuery cfg s st).2 ::
          (run cfg (logToBigQuery cfg s st).1 rest).2) = _
      rw [hl]
    rw [hrun]
    refine ⟨(ih s).1, ?_⟩
    intro e he
    rcases List.mem_cons.mp he with rfl | he
    · rfl
    · exact (ih s).2 e he

theorem mergeRow_lookup_default (now : String) (d : EventDict) (k : String)
    (hk : k ∈ eightFields) (hkts : k ≠ "timestamp")
    (h : List.lookup k d = none) :
    List.lookup k (mergeRow now d) = some none := by
  fin_cases hk
  · exact absurd rfl hkts
  · rw [show List.lookup "event_type" (mergeRow now d)
      = some ((List.lookup "event_type" d).getD none) from rfl, h]
    rfl
  · rw [show List.lookup "agent" (mergeRow now d)
      = some ((List.lookup "agent" d).getD none) from rfl, h]
    rfl
  · rw [show List.lookup "session_id" (mergeRow now d)
      = some ((List.lookup "session_id" d).getD none) from rfl, h]
    rfl
  · rw [show List.lookup "invocation_id" (mergeRow now d)
      = some ((List.lookup "invocation_id" d).getD none) from rfl, h]
    rfl
  · rw [show List.lookup "user_id" (mergeRow now d)
      = some ((List.lookup "user_id" d).getD none) from rfl, h]
    rfl
  · rw [show List.lookup "content" (mergeRow now d)
      = some ((List.lookup "content" d).getD none) from rfl, h]
    rfl
  · rw [show List.lookup "error_message" (mergeRow now d)
      = some ((List.lookup "error_message" d).getD none) from rfl, h]
    rfl

/-- A permissive enabled configuration: no lists, no formatter. -/
def cfgEx : Config := ⟨true, none, none, none⟩

/-- A disabled configuration. -/
def cfgDisabled : Config := ⟨false, none, none, none⟩

/-- A configuration with an allowlist containing "A" and a denylist
containing "B". -/
def cfgLists : Config := ⟨true, some ["A"], some ["B"], none⟩

/-- A configuration whose content formatter always raises. -/
def cfgFmt : Config := ⟨true, none, none, some (fun _ => none)⟩

/-- A small event dict carrying an event type and a content value. -/
def dictEx : EventDict := [("event_type", some "SYSTEM"), ("content", some "hello")]

/-- A write step whose initialization (were it to run) succeeds and
whose insert succeeds. -/
def stepOk : Step := ⟨.success, .ok, "t0", dictEx⟩

/-- A write step whose initialization (were it to run) fails on auth. -/
def stepFail : Step := ⟨.authFail, .ok, "t0", dictEx⟩

/-- A write step admitted under `cfgLists`. -/
def stepA : Step := ⟨.success, .ok, "t0", [("event_type", some "A")]⟩

/-- A plugin state after a failed initialization attempt. -/
def sDoneFail : PluginState := ⟨true, false, false⟩

/-- Claim C1: the Sink initialization body executes at most once per
plugin instance: over any fresh run the body runs in at most one write
call; once `_init_done` is true a write call performs no initialization
attempt and leaves the state unchanged; once `_init_done` is true with
`_init_succeeded` false, a write call inserts no row; a call whose body
runs with a failing outcome moves the instance into that dead state and
inserts no row itself; and the first admitted write call of a fresh
enabled instance does run the body. -/
theorem c1_init_at_most_once (cfg : Config) (steps : List Step)
    (s : PluginState) (st : Step) :
    countInit (run cfg freshState steps).2 ≤ 1
    ∧ (s.init_done = true →
        (logToBigQuery cfg s st).2.initBodyRan = false
        ∧ (logToBigQuery cfg s st).1 = s)
    ∧ (s.init_done = true → s.init_succeeded = false →
        (logToBigQuery cfg s st).2.insertedRow = none)
    ∧ ((logToBigQuery cfg s st).2.initBodyRan = true →
        st.outcome ≠ InitOutcome.success →
        (logToBigQuery cfg s st).1.init_done = true
        ∧ (logToBigQuery cfg s st).1.init_succeeded = false
        ∧ (logToBigQuery cfg s st).2.insertedRow = none)
    ∧ (s.init_done = false → cfg.enabled = true →
        denyCheck cfg (eventTypeOf st.dict) = false →
        allowCheck cfg (eventTypeOf st.dict) = false →
        (logToBigQuery cfg s st).2.initBodyRan = true) := by
  refine ⟨?_, ?_, ?_, ?_, ?_⟩
  · have hb := run_countInit cfg steps freshState
    simpa [freshState] using hb
  · intro h
    exact ⟨log_done_not_ran cfg s st h, log_done_state cfg s st h⟩
  · intro h h2
    exact log_failed_no_row cfg s st h h2
  · intro hr ho
    rcases log_cases cfg s st with he | ⟨_, _, _, he⟩
    · rw [he] at hr
      simp [noEffect] at hr
    · rw [he] at hr ⊢
      have h' : (ensureInitializedSync cfg s st.outcome).2 = true := by
        rw [← syncLog_ran cfg s st.outcome st.now (applyFormatter cfg st.dict).1
          st.behavior]
        exact hr
      obtain ⟨hsf, hsd⟩ := ensure_fail cfg s st.outcome ho h'
      refine ⟨?_, ?_, ?_⟩
      · show (syncLog cfg s st.outcome st.now (applyFormatter cfg st.dict).1
          st.behavior).state.init_done = true
        rw [syncLog_state]
        exact hsd
      · show (syncLog cfg s st.outcome st.now (applyFormatter cfg st.dict).1
          st.behavior).state.init_succeeded = false
        rw [syncLog_state]
        exact hsf
      · show (syncLog cfg s st.outcome st.now (applyFormatter cfg st.dict).1
          st.behavior).insertedRow = none
        exact syncLog_row_none _ _ _ _ _ _ hsf
  · intro hd he hdeny hallow
    rw [log_admitted cfg s st he hdeny hallow]
    show (syncLog cfg s st.outcome st.now (applyFormatter cfg st.dict).1
      st.behavior).initBodyRan = true
    rw [syncLog_ran]
    exact ensure_ran_of cfg s st.outcome he hd

theorem c1_init_at_most_once_witness :
    countInit (run cfgEx freshState [stepFail, stepOk]).2 ≤ 1
    ∧ (logToBigQuery cfgEx sDoneFail stepOk).2.initBodyRan = false
    ∧ (logToBigQuery cfgEx sDoneFail stepOk).1 = sDoneFail
    ∧ (logToBigQuery cfgEx sDoneFail stepOk).2.insertedRow = none
    ∧ (logToBigQuery cfgEx freshState stepOk).2.initBodyRan = true :=
  ⟨(c1_init_at_most_once cfgEx [stepFail, stepOk] sDoneFail stepOk).1,
   ((c1_init_at_most_once cfgEx [stepFail, stepOk] sDoneFail stepOk).2.1 rfl).1,
   ((c1_init_at_most_once cfgEx [stepFail, stepOk] sDoneFail stepOk).2.1 rfl).2,
   (c1_init_at_most_once cfgEx [stepFail, stepOk] sDoneFail stepOk).2.2.1 rfl rfl,
   (c1_init_at_most_once cfgEx [stepFail, stepOk] freshState stepOk).2.2.2.2
     rfl rfl (by decide) (by decide)⟩

/-- Claim C2: a row is handed to the store insert call only when the
configuration is enabled, the event type is not in the denylist, and
the allowlist is empty/absent or contains the event type. -/
theorem c2_filter_gates_insert (cfg : Config) (s : PluginState) (st : Step)
    (r : EventDict) (h : (logToBigQuery cfg s st).2.insertedRow = some r) :
    cfg.enabled = true
    ∧ (∀ l, cfg.event_denylist = some l →
        inListOpt (eventTypeOf st.dict) l = false)
    ∧ (∀ l, cfg.event_allowlist = some l → l ≠ [] →
        inListOpt (eventTypeOf st.dict) l = true) := by
  obtain ⟨h1, h2, h3, _, _⟩ := log_row cfg s st r h
  refine ⟨h1, ?_, ?_⟩
  · intro l hl
    cases l with
    | nil => exact inListOpt_nil _
    | cons x xs =>
      simp only [denyCheck, hl] at h2
      simpa using h2
  · intro l hl hne
    have hemp : l.isEmpty = false := by
      cases l with
      | nil => exact absurd rfl hne
      | cons x xs => rfl
    simp only [allowCheck, hl, hemp] at h3
    simpa using h3

theorem c2_filter_gates_insert_witness :
    cfgLists.enabled = true
    ∧ (∀ l, cfgLists.event_denylist = some l →
        inListOpt (eventTypeOf stepA.dict) l = false)
    ∧ (∀ l, cfgLists.event_allowlist = some l → l ≠ [] →
        inListOpt (eventTypeOf stepA.dict) l = true) :=
  c2_filter_gates_insert cfgLists freshState stepA
    (mergeRow "t0" stepA.dict) rfl

/-- Claim C3: when the configured content formatter raises on a record
whose content key is present, the dict reaching the writer is the
original dict — its content equals the pre-override value — and the
record is still handed to `_sync_log` rather than dropped. -/
theorem c3_formatter_failure_preserves_content (cfg : Config)
    (s : PluginState) (st : Step) (f : Option String → Option (Option String))
    (c : Option String)
    (hf : cfg.content_formatter = some f)
    (hc : List.lookup "content" st.dict = some c)
    (hraise : f c = none)
    (h1 : cfg.enabled = true)
    (h2 : denyCheck cfg (eventTypeOf st.dict) = false)
    (h3 : allowCheck cfg (eventTypeOf st.dict) = false) :
    (logToBigQuery cfg s st).2.sentDict = some st.dict
    ∧ (logToBigQuery cfg s st).2.formatterRan = true := by
  rw [log_admitted cfg s st h1 h2 h3]
  have hfm : applyFormatter cfg st.dict = (st.dict, true) := by
    simp [applyFormatter, hf, hc, hraise]
  constructor
  · show some (applyFormatter cfg st.dict).1 = some st.dict
    rw [hfm]
  · show (applyFormatter cfg st.dict).2 = true
    rw [hfm]

theorem c3_formatter_failure_preserves_content_witness :
    (logToBigQuery cfgFmt freshState stepOk).2.sentDict = some stepOk.dict
    ∧ (logToBigQuery cfgFmt freshState stepOk).2.formatterRan = true :=
  c3_formatter_failure_preserves_content cfgFmt freshState stepOk
    (fun _ => none) (some "hello") rfl rfl rfl rfl rfl rfl

/-- Claim C4, counterexample: a store client that raises an exception
outside the Google Cloud / Google auth families (for example the
`ValueError` that `insert_rows_json` raises on a non-serializable row)
propagates out of the write call — the claim that no failure of any
store-client behavior escapes the hook is false. -/
theorem c4_no_propagation_counterexample :
    (logToBigQuery cfgEx freshState
      ⟨.success, .raiseOther, "t0", dictEx⟩).2.raised = some ClientErr.other := by
  rfl

/-- Claim C4, amended: no failure propagates out of a write call as
long as any exception the store client raises is a Google Cloud or
Google auth error — initialization failures, formatter failures and
per-row error lists are always contained and logged. -/
theorem c4_no_propagation_amended (cfg : Config) (s : PluginState) (st : Step)
    (h : st.behavior ≠ InsertBehavior.raiseOther) :
    (logToBigQuery cfg s st).2.raised = none := by
  rcases log_cases cfg s st with he | ⟨_, _, _, he⟩
  · rw [he]; rfl
  · rw [he]
    show catchGoogle (syncLog cfg s st.outcome st.now
      (applyFormatter cfg st.dict).1 st.behavior).thrown = none
    rcases syncLog_thrown cfg s st.outcome st.now (applyFormatter cfg st.dict).1
      st.behavior with ht | ht
    · rw [ht]; rfl
    · rw [ht]
      cases hb : st.behavior with
      | ok => rfl
      | rowErrors => rfl
      | raiseCloud => rfl
      | raiseAuth => rfl
      | raiseOther => exact absurd hb h

theorem c4_no_propagation_amended_witness :
    (logToBigQuery cfgEx freshState
      ⟨.success, .raiseCloud, "t0", dictEx⟩).2.raised = none :=
  c4_no_propagation_amended cfgEx freshState
    ⟨.success, .raiseCloud, "t0", dictEx⟩ (by decide)

/-- Claim C5: every row handed to the store insert call has all eight
schema fields present as keys; any of the seven non-timestamp fields
that the event dict omits is present with an explicit null value. -/
theorem c5_row_fixed_shape (cfg : Config) (s : PluginState) (st : Step)
    (r : EventDict) (h : (logToBigQuery cfg s st).2.insertedRow = some r) :
    (∀ k ∈ eightFields, ∃ v, List.lookup k r = some v)
    ∧ (∀ d, (logToBigQuery cfg s st).2.sentDict = some d →
        ∀ k ∈ eightFields, k ≠ "timestamp" → List.lookup k d = none →
          List.lookup k r = some none) := by
  obtain ⟨_, _, _, _, d0, hd0, hr⟩ := log_row cfg s st r h
  subst hr
  constructor
  · intro k hk
    fin_cases hk <;> exact ⟨_, rfl⟩
  · intro d hd k hk hkts hnone
    have hdd : d0 = d := by
      rw [hd0] at hd
      exact Option.some.inj hd
    subst hdd
    exact mergeRow_lookup_default st.now d0 k hk hkts hnone

theorem c5_row_fixed_shape_witness :
    (∀ k ∈ eightFields, ∃ v,
        List.lookup k (mergeRow "t0" stepOk.dict) = some v)
    ∧ (∀ d, (logToBigQuery cfgEx freshState stepOk).2.sentDict = some d →
        ∀ k ∈ eightFields, k ≠ "timestamp" → List.lookup k d = none →
          List.lookup k (mergeRow "t0" stepOk.dict) = some none) :=
  c5_row_fixed_shape cfgEx freshState stepOk (mergeRow "t0" stepOk.dict) rfl

/-- Claim C7: with a disabled configuration, any number of write calls
performs zero initialization attempts, zero formatter invocations and
zero inserts and leaves the state untouched; and any filter-rejected
call (disabled, denylisted, or not in a non-empty allowlist) is a
complete no-op, so no initialization attempt occurs and the content
formatter is never invoked for that event. -/
theorem c7_disabled_and_rejected_noop (cfg : Config) (steps : List Step)
    (s : PluginState) (st : Step) :
    (cfg.enabled = false →
      (run cfg s steps).1 = s
      ∧ ∀ e ∈ (run cfg s steps).2,
          e.initBodyRan = false ∧ e.insertedRow = none ∧ e.formatterRan = false)
    ∧ ((cfg.enabled = false
        ∨ denyCheck cfg (eventTypeOf st.dict) = true
        ∨ allowCheck cfg (eventTypeOf st.dict) = true) →
      logToBigQuery cfg s st = (s, noEffect)) := by
  refine ⟨?_, fun h => log_filtered cfg s st h⟩
  intro h
  obtain ⟨h1, h2⟩ := run_disabled cfg h steps s
  refine ⟨h1, ?_⟩
  intro e he
  rw [h2 e he]
  exact ⟨rfl, rfl, rfl⟩

theorem c7_disabled_and_rejected_noop_witness :
    ((run cfgDisabled freshState [stepOk]).1 = freshState
      ∧ ∀ e ∈ (run cfgDisabled freshState [stepOk]).2,
          e.initBodyRan = false ∧ e.insertedRow = none ∧ e.formatterRan = false)
    ∧ logToBigQuery cfgDisabled freshState stepOk = (freshState, noEffect) :=
  ⟨(c7_disabled_and_rejected_noop cfgDisabled [stepOk] freshState stepOk).1 rfl,
   (c7_disabled_and_rejected_noop cfgDisabled [stepOk] freshState stepOk).2
     (Or.inl rfl)⟩

/-- A 201-character text value: 200 spaces followed by one letter. -/
def spaces200a : String := String.mk (List.replicate 200 ' ') ++ "a"

/-- Claim C6, counterexample: a text value of length 201 (greater than
200) whose visible text is a single character is NOT truncated to its
first 200 characters plus an ellipsis — `_format_content` strips
whitespace before measuring, so the rendered summary is "text: 'a'". -/
theorem c6_truncation_counterexample :
    spaces200a.length = 201
    ∧ formatContent (some ⟨[⟨some spaces200a, none, none, none⟩]⟩) 200
        = "text: 'a'"
    ∧ "text: 'a'" ≠ "text: '" ++ spaces200a.take 200 ++ "...'" :=
  ⟨by decide, by decide, by decide⟩

/-- Claim C6, amended: a text value is first stripped of surrounding
whitespace; the stripped text is truncated to its first 200 characters
plus an ellipsis when longer than 200 and rendered unchanged otherwise
(in particular a whitespace-free value of length 150 is unchanged); an
arguments dictionary whose `str` rendering exceeds 300 characters is
truncated to its first 300 characters plus a closing marker, and a
rendering of at most 300 characters (such as one of length 100) is
unchanged. -/
theorem c6_truncation_amended :
    (∀ t : String, t ≠ "" → 200 < (pyStrip t).length →
      formatPart 200 ⟨some t, none, none, none⟩
        = "text: '" ++ ((pyStrip t).take 200 ++ "...") ++ "'")
    ∧ (∀ t : String, t ≠ "" → (pyStrip t).length ≤ 200 →
      formatPart 200 ⟨some t, none, none, none⟩
        = "text: '" ++ pyStrip t ++ "'")
    ∧ (∀ args : List (String × String), 300 < (strDict args).length →
      formatArgs args 300 = (strDict args).take 300 ++ "...\x7d")
    ∧ (∀ args : List (String × String), (strDict args).length ≤ 300 →
      formatArgs args 300 = strDict args) := by
  refine ⟨?_, ?_, ?_, ?_⟩
  · intro t ht hl
    show (if t = "" then formatPartRest ⟨some t, none, none, none⟩
      else "text: '" ++ (if 200 < (pyStrip t).length
        then (pyStrip t).take 200 ++ "..." else pyStrip t) ++ "'") = _
    rw [if_neg ht, if_pos hl]
  · intro t ht hl
    show (if t = "" then formatPartRest ⟨some t, none, none, none⟩
      else "text: '" ++ (if 200 < (pyStrip t).length
        then (pyStrip t).take 200 ++ "..." else pyStrip t) ++ "'") = _
    rw [if_neg ht, if_neg (by omega)]
  · intro args hl
    cases args with
    | nil => exact absurd hl (by decide)
    | cons x xs =>
      show (if 300 < (strDict (x :: xs)).length
        then (strDict (x :: xs)).take 300 ++ "...\x7d"
        else strDict (x :: xs)) = _
      rw [if_pos hl]
  · intro args hl
    cases args with
    | nil => rfl
    | cons x xs =>
      show (if 300 < (strDict (x :: xs)).length
        then (strDict (x :: xs)).take 300 ++ "...\x7d"
        else strDict (x :: xs)) = _
      rw [if_neg (by omega)]

/-- A whitespace-free string of 250 characters. -/
def t250 : String := String.mk (List.replicate 250 'x')

/-- A whitespace-free string of 150 characters. -/
def t150 : String := String.mk (List.replicate 150 'x')

/-- An arguments dictionary whose `str` rendering has 399 characters. -/
def args400 : List (String × String) := [("k", String.mk (List.replicate 390 'v'))]

/-- An arguments dictionary whose `str` rendering has 99 characters. -/
def args100 : List (String × String) := [("k", String.mk (List.replicate 90 'v'))]

theorem c6_truncation_amended_witness :
    formatPart 200 ⟨some t250, none, none, none⟩
      = "text: '" ++ ((pyStrip t250).take 200 ++ "...") ++ "'"
    ∧ formatPart 200 ⟨some t150, none, none, none⟩
      = "text: '" ++ pyStrip t150 ++ "'"
    ∧ formatArgs args400 300 = (strDict args400).take 300 ++ "...\x7d"
    ∧ formatArgs args100 300 = strDict args100 :=
  ⟨c6_truncation_amended.1 t250 (by decide) (by decide),
   c6_truncation_amended.2.1 t150 (by decide) (by decide),
   c6_truncation_amended.2.2.1 args400 (by decide),
   c6_truncation_amended.2.2.2 args100 (by decide)⟩

theorem getFunctionCalls_ne_nil (e : Event)
    (h : ∃ p ∈ partsOf e, p.function_call.isSome) :
    getFunctionCalls e ≠ [] := by
  intro hnil
  obtain ⟨p, hp, hpc⟩ := h
  have := (List.filterMap_eq_nil_iff.mp hnil) p hp
  rw [this] at hpc
  simp at hpc

theorem getFunctionResponses_ne_nil (e : Event)
    (h : ∃ p ∈ partsOf e, p.function_response.isSome) :
    getFunctionResponses e ≠ [] := by
  intro hnil
  obtain ⟨p, hp, hpc⟩ := h
  have := (List.filterMap_eq_nil_iff.mp hnil) p hp
  rw [this] at hpc
  simp at hpc

/-- Claim C8: `_get_event_type` follows the exact priority order — user
author, then function-call request, then function-call result, then
non-empty content parts, then a truthy error message, then the SYSTEM
fallback — and always produces one of the six event types. -/
theorem c8_classifier_priority (e : Event) :
    (e.author = "user" → getEventType e = "USER_INPUT")
    ∧ (e.author ≠ "user" → (∃ p ∈ partsOf e, p.function_call.isSome) →
        getEventType e = "TOOL_CALL")
    ∧ (e.author ≠ "user" → (∀ p ∈ partsOf e, p.function_call = none) →
        (∃ p ∈ partsOf e, p.function_response.isSome) →
        getEventType e = "TOOL_RESULT")
    ∧ (e.author ≠ "user" → (∀ p ∈ partsOf e, p.function_call = none) →
        (∀ p ∈ partsOf e, p.function_response = none) →
        partsOf e ≠ [] → getEventType e = "MODEL_RESPONSE")
    ∧ (e.author ≠ "user" → partsOf e = [] →
        optStrTruthy e.error_message = true → getEventType e = "ERROR")
    ∧ (e.author ≠ "user" → partsOf e = [] →
        optStrTruthy e.error_message = false → getEventType e = "SYSTEM")
    ∧ getEventType e ∈ ["USER_INPUT", "TOOL_CALL", "TOOL_RESULT",
        "MODEL_RESPONSE", "ERROR", "SYSTEM"] := by
  refine ⟨?_, ?_, ?_, ?_, ?_, ?_, ?_⟩
  · intro h
    unfold getEventType
    rw [if_pos h]
  · intro h hex
    unfold getEventType
    rw [if_neg h, if_pos (getFunctionCalls_ne_nil e hex)]
  · intro h hall hex
    have hfc : getFunctionCalls e = [] := List.filterMap_eq_nil_iff.mpr hall
    unfold getEventType
    rw [if_neg h, if_neg (fun hne => hne hfc),
      if_pos (getFunctionResponses_ne_nil e hex)]
  · intro h hallc hallr hne
    have hfc : getFunctionCalls e = [] := List.filterMap_eq_nil_iff.mpr hallc
    have hfr : getFunctionResponses e = [] := List.filterMap_eq_nil_iff.mpr hallr
    unfold getEventType
    rw [if_neg h, if_neg (fun hx => hx hfc), if_neg (fun hx => hx hfr),
      if_pos hne]
  · intro h hparts herr
    have hfc : getFunctionCalls e = [] := by
      rw [getFunctionCalls, hparts]; rfl
    have hfr : getFunctionResponses e = [] := by
      rw [getFunctionResponses, hparts]; rfl
    unfold getEventType
    rw [if_neg h, if_neg (fun hx => hx hfc), if_neg (fun hx => hx hfr),
      if_neg (fun hx => hx hparts), if_pos herr]
  · intro h hparts herr
    have hfc : getFunctionCalls e = [] := by
      rw [getFunctionCalls, hparts]; rfl
    have hfr : getFunctionResponses e = [] := by
      rw [getFunctionResponses, hparts]; rfl
    unfold getEventType
    rw [if_neg h, if_neg (fun hx => hx hfc), if_neg (fun hx => hx hfr),
      if_neg (fun hx => hx hparts), if_neg (by simp [herr])]
  · unfold getEventType
    by_cases h1 : e.author = "user"
    · simp [h1]
    · by_cases h2 : getFunctionCalls e ≠ []
      · simp [h1, h2]
      · by_cases h3 : getFunctionResponses e ≠ []
        · simp [h1, h2, h3]
        · by_cases h4 : partsOf e ≠ []
          · simp [h1, h2, h3, h4]
          · by_cases h5 : optStrTruthy e.error_message = true
            · simp [h1, h2, h3, h4, h5]
            · simp [h1, h2, h3, h4, h5]

/-- An event authored by the user. -/
def evUser : Event := ⟨"user", none, none⟩

/-- The content of an event carrying one function-call part with a
payload. -/
def cFC : Content :=
  ⟨[⟨none, some ⟨"f", [("secret_key", "secret_payload")]⟩, none, none⟩]⟩

/-- A non-user event carrying one function-call part. -/
def evFC : Event := ⟨"sys_agent", some cFC, none⟩

/-- A non-user event carrying one function-response part. -/
def evFR : Event := ⟨"m", some ⟨[⟨none, none, some ⟨"g", []⟩, none⟩]⟩, none⟩

/-- A non-user event carrying one plain text part. -/
def evText : Event := ⟨"m", some ⟨[⟨some "hi", none, none, none⟩]⟩, none⟩

/-- A non-user event with no content and a non-empty error message. -/
def evErr : Event := ⟨"m", none, some "boom"⟩

/-- A non-user event with no content and an empty (falsy) error
message. -/
def evSys : Event := ⟨"m", none, some ""⟩

theorem c8_classifier_priority_witness :
    getEventType evUser = "USER_INPUT"
    ∧ getEventType evFC = "TOOL_CALL"
    ∧ getEventType evFR = "TOOL_RESULT"
    ∧ getEventType evText = "MODEL_RESPONSE"
    ∧ getEventType evErr = "ERROR"
    ∧ getEventType evSys = "SYSTEM" :=
  ⟨(c8_classifier_priority evUser).1 rfl,
   (c8_classifier_priority evFC).2.1 (by decide) (by decide),
   (c8_classifier_priority evFR).2.2.1 (by decide) (by decide) (by decide),
   (c8_classifier_priority evText).2.2.2.1 (by decide) (by decide) (by decide)
     (by decide),
   (c8_classifier_priority evErr).2.2.2.2.1 (by decide) rfl rfl,
   (c8_classifier_priority evSys).2.2.2.2.2.1 (by decide) rfl rfl⟩

/-- The correlation context used by concrete hook examples. -/
def ctx0 : Ctx := ⟨"agent0", "sess0", "inv0", "user0"⟩

/-- Does the row written by `on_event_callback` for `evFC` carry the
function call's full payload in its content field, while differing from
the name-only `_format_content` summary? -/
def rowPayloadCheck (eff : Effect) : Bool :=
  match eff.insertedRow with
  | some r =>
    match List.lookup "content" r with
    | some (some s) =>
        hasSubstr s "secret_payload" && !(s == formatContent evFC.content 200)
    | _ => false
  | none => false

/-- Claim C9, counterexample: the generic-event hook writes the full
JSON serialization of the content parts — the function-call payload
("secret_payload") appears verbatim in the written row's content field,
and the written content is not the name-only summary, so the full
payload does reach a written row. -/
theorem c9_payload_never_written_counterexample :
    rowPayloadCheck
      (onEventCallback "t0" ctx0 evFC cfgEx freshState
        InitOutcome.success InsertBehavior.ok "t1").2 = true := by
  decide

/-- Claim C9, amended: content rendered through `_format_content` is a
" | "-joined list of per-part summaries in which function-call and
function-response parts are rendered by name only, independent of their
payload; the generic-event hook (`on_event_callback`), however, writes
the full JSON dump of the parts, payloads included, as the row's
content. -/
theorem c9_content_summaries_amended :
    (∀ (c : Content) (ml : Nat), c.parts ≠ [] →
      formatContent (some c) ml
        = String.intercalate " | " (c.parts.map (formatPart ml)))
    ∧ (∀ (ml : Nat) (n : String) (a b : List (String × String)),
        formatPart ml ⟨none, some ⟨n, a⟩, none, none⟩ = "function_call: " ++ n
        ∧ formatPart ml ⟨none, none, some ⟨n, b⟩, none⟩
            = "function_response: " ++ n)
    ∧ (∀ (ts : String) (ctx : Ctx) (e : Event) (c : Content),
        e.content = some c → c.parts ≠ [] →
        List.lookup "content" (onEventDict ts ctx e)
          = some (some (jsonDumpParts c.parts))) := by
  refine ⟨?_, ?_, ?_⟩
  · intro c ml h
    have hemp : c.parts.isEmpty = false := by
      cases hp : c.parts with
      | nil => exact absurd hp h
      | cons x xs => rfl
    show (if c.parts.isEmpty then "None"
      else String.intercalate " | " (c.parts.map (formatPart ml))) = _
    rw [hemp]
    rfl
  · intro ml n a b
    exact ⟨rfl, rfl⟩
  · intro ts ctx e c hc hp
    have hemp : c.parts.isEmpty = false := by
      cases hx : c.parts with
      | nil => exact absurd hx hp
      | cons x xs => rfl
    have hl : List.lookup "content" (onEventDict ts ctx e)
        = some (match e.content with
                | some c =>
                  if c.parts.isEmpty then none
                  else some (jsonDumpParts c.parts)
                | none => none) := rfl
    rw [hl, hc]
    simp [hemp]

theorem c9_content_summaries_amended_witness :
    formatContent (some cFC) 200
      = String.intercalate " | " (cFC.parts.map (formatPart 200))
    ∧ formatPart 200 ⟨none, some ⟨"f", [("k", "v")]⟩, none, none⟩
        = "function_call: " ++ "f"
    ∧ formatPart 200 ⟨none, none, some ⟨"g", [("k", "v")]⟩, none⟩
        = "function_response: " ++ "g"
    ∧ List.lookup "content" (onEventDict "t0" ctx0 evFC)
        = some (some (jsonDumpParts cFC.parts)) :=
  ⟨c9_content_summaries_amended.1 cFC 200 (by decide),
   (c9_content_summaries_amended.2.1 200 "f" [("k", "v")] [("k", "v")]).1,
   (c9_content_summaries_amended.2.1 200 "g" [("k", "v")] [("k", "v")]).2,
   c9_content_summaries_amended.2.2 "t0" ctx0 evFC cFC rfl (by decide)⟩

/-- Claim C10: in the row built by `after_model_callback`, the
error_message field equals the response's error_message only under a
truthy error_code; when error_code is absent the field is an explicit
null even if the response carries a non-empty error_message. -/
theorem c10_error_message_gated_by_code (now : String) (ctx : Ctx)
    (r : LlmResponse) :
    (r.error_code = none →
      List.lookup "error_message" (afterModelDict now ctx r) = some none)
    ∧ (∀ c, r.error_code = some c → c ≠ "" →
      List.lookup "error_message" (afterModelDict now ctx r)
        = some r.error_message) := by
  have hl : List.lookup "error_message" (afterModelDict now ctx r)
      = some (if optStrTruthy r.error_code then r.error_message else none) :=
    rfl
  constructor
  · intro h
    rw [hl, h]
    rfl
  · intro c hc hne
    rw [hl, hc]
    simp [optStrTruthy, hne]

/-- A model response with an error message but no error code. -/
def respNoCode : LlmResponse := ⟨none, none, none, some "boom"⟩

/-- A model response with both an error code and an error message. -/
def respWithCode : LlmResponse := ⟨none, none, some "500", some "boom"⟩

theorem c10_error_message_gated_by_code_witness :
    List.lookup "error_message" (afterModelDict "t" ctx0 respNoCode) = some none
    ∧ List.lookup "error_message" (afterModelDict "t" ctx0 respWithCode)
        = some respWithCode.error_message :=
  ⟨(c10_error_message_gated_by_code "t" ctx0 respNoCode).1 rfl,
   (c10_error_message_gated_by_code "t" ctx0 respWithCode).2 "500" rfl
     (by decide)⟩

end BQLog
